import Mathlib

/-!
Shallow embedding of `src/mgmt/share_config.c` (cifsd share-configuration
cache): the share-config entity, the veto-list parser, the name-keyed share
table with its lookup / acquire / reconcile operations, and the fsid
override computation.

Modelling conventions:
* C strings are `List Nat` of byte values; the NUL terminator is the byte 0.
* Fallible kernel allocations (`ksmbd_alloc`, `kstrdup`) are driven by an
  explicit oracle: a `List Bool` of outcomes of successive allocations; an
  exhausted oracle means every further allocation succeeds.
* `kern_path` is an oracle `List Nat → Option Nat` from a path string to a
  resolved handle (`none` = resolution error).
* The external IPC call `ksmbd_ipc_share_config_request` is an oracle value
  `Option ShareConfigResponse` (`none` = NULL response).
* The hash table is flattened to a list with `hash_add` as head insertion;
  equal names hash to the same bucket, so the relative order of same-name
  entries — the only order `__share_lookup`'s first-match semantics can
  observe — is exactly preserved.
-/

namespace Cifsd

/-- `#define SHARE_INVALID_UID ((__u16)-1)` (share_config.c line 22). -/
def SHARE_INVALID_UID : Nat := 65535

/-- `#define SHARE_INVALID_GID ((__u16)-1)` (share_config.c line 23). -/
def SHARE_INVALID_GID : Nat := 65535

/-- Modelled from the spec: the no-capabilities flags value of the
ConfigLoader response, from the IPC header that is not part of this slice
(`KSMBD_SHARE_FLAG_INVALID`). -/
def KSMBD_SHARE_FLAG_INVALID : Nat := 0

/-- Modelled from the spec: the "is a pipe" capability bit of the flags
word, from the IPC header that is not part of this slice
(`KSMBD_SHARE_FLAG_PIPE`); any fixed nonzero single bit serves. -/
def KSMBD_SHARE_FLAG_PIPE : Nat := 256

/-- `GLOBAL_ROOT_UID`: the superuser identity. `make_kuid` is modelled as
the identity map (`init_user_ns`). -/
def GLOBAL_ROOT_UID : Nat := 0

/-- Kernel `tolower` on a byte: only ASCII A–Z are lowered. -/
def tolowerByte (c : Nat) : Nat := if 65 ≤ c ∧ c ≤ 90 then c + 32 else c

/-- `strtolower` (share_config.c lines 204–210): lowercases every byte of
the NUL-terminated buffer in place; the model maps the buffer's content. -/
def strtolower (s : List Nat) : List Nat := s.map tolowerByte

/-- The ConfigLoader response (`struct ksmbd_share_config_response`); the
`KSMBD_SHARE_CONFIG_PATH` / `KSMBD_SHARE_CONFIG_VETO_LIST` payload macros
are modelled as the two decoded fields `path` and `veto_buf`. -/
structure ShareConfigResponse where
  flags : Nat
  create_mask : Nat
  directory_mask : Nat
  force_create_mode : Nat
  force_directory_mode : Nat
  force_uid : Nat
  force_gid : Nat
  path : List Nat
  veto_buf : List Nat
  veto_list_sz : Int
deriving DecidableEq

/-- `struct ksmbd_share_config`. `name` and `path` are `Option` because the
corresponding `kstrdup` may fail leaving a NULL pointer; `vfs_path` is the
resolved handle filled by `kern_path`; `veto_list` holds the owned pattern
strings in list order (head = most recently `list_add`ed). -/
structure ShareConfig where
  name : Option (List Nat)
  path : Option (List Nat)
  path_sz : Nat
  vfs_path : Option Nat
  flags : Nat
  create_mask : Nat
  directory_mask : Nat
  force_create_mode : Nat
  force_directory_mode : Nat
  force_uid : Nat
  force_gid : Nat
  veto_list : List (List Nat)
  refcount : Nat
deriving DecidableEq

/-- `ksmbd_alloc` returns zeroed memory (it is a zeroing allocator), so a
freshly allocated `struct ksmbd_share_config` has all fields zero / NULL. -/
def zeroShare : ShareConfig :=
  { name := none, path := none, path_sz := 0, vfs_path := none, flags := 0,
    create_mask := 0, directory_mask := 0, force_create_mode := 0,
    force_directory_mode := 0, force_uid := 0, force_gid := 0,
    veto_list := [], refcount := 0 }

/-- Modelled from the spec: `test_share_config_flag` macro from the share
config header (not in this slice) tests one capability bit of `flags`. -/
def test_share_config_flag (share : ShareConfig) (flag : Nat) : Bool :=
  decide (share.flags &&& flag ≠ 0)

/-- Draw the next outcome from the allocation oracle; an exhausted oracle
means the allocation succeeds. -/
def allocTake : List Bool → Bool × List Bool
  | [] => (true, [])
  | b :: rest => (b, rest)

/-- The loop of `parse_veto_list` (share_config.c lines 106–127): while the
remaining length is positive, allocate a `ksmbd_veto_pattern` (first oracle
draw), read `strlen` of the current string, stop successfully on a
zero-length string, otherwise `kstrdup` the string (second oracle draw),
`list_add` it (head insertion) and advance by length+1.  Returns the final
veto list together with the rest of the allocation oracle;
`Except.error ()` is `-ENOMEM`. -/
def parse_veto_list_loop (allocs : List Bool) (veto_buf : List Nat)
    (sz_rem : Int) (veto : List (List Nat)) :
    Except Unit (List (List Nat)) × List Bool :=
  if 0 < sz_rem then
    let a1 := allocTake allocs
    if a1.1 = false then (Except.error (), a1.2)
    else
      let s := veto_buf.takeWhile (fun c => c != 0)
      if s.length = 0 then (Except.ok veto, a1.2)
      else
        let a2 := allocTake a1.2
        if a2.1 = false then (Except.error (), a2.2)
        else
          parse_veto_list_loop a2.2 (veto_buf.drop (s.length + 1))
            (sz_rem - ((s.length : Int) + 1)) (s :: veto)
  else (Except.ok veto, allocs)
termination_by sz_rem.toNat
decreasing_by omega

/-- `parse_veto_list` (share_config.c lines 97–130): the share's veto list
starts empty (`INIT_LIST_HEAD`); the early `if (!veto_list_sz) return 0`
coincides with the loop guard. -/
def parse_veto_list (allocs : List Bool) (veto_buf : List Nat)
    (veto_list_sz : Int) : Except Unit (List (List Nat)) × List Bool :=
  parse_veto_list_loop allocs veto_buf veto_list_sz []

/-- The construction phase of `share_config_request` (share_config.c lines
146–185), after the response was obtained and found valid: allocate the
share (oracle draw 1, zeroed), set flags / refcount 1 / empty veto list,
`kstrdup` the name (draw 2); for non-pipe shares additionally `kstrdup` the
path (draw 3), copy the masks and force fields, parse the veto buffer and
resolve the path with `kern_path`; a resolution error frees and NULLs
`path` (leaving `ret` nonzero), and `if (ret || !share->name)` kills the
share yielding NULL. -/
def share_config_build (allocs : List Bool) (resolver : List Nat → Option Nat)
    (resp : ShareConfigResponse) (name : List Nat) :
    Option ShareConfig × List Bool :=
  let a1 := allocTake allocs
  if a1.1 = false then (none, a1.2)
  else
    let a2 := allocTake a1.2
    let share0 : ShareConfig :=
      { zeroShare with
          flags := resp.flags
          refcount := 1
          name := if a2.1 then some name else none }
    if test_share_config_flag share0 KSMBD_SHARE_FLAG_PIPE then
      (some share0, a2.2)
    else
      let a3 := allocTake a2.2
      let share1 : ShareConfig :=
        { share0 with
            path := if a3.1 then some resp.path else none
            path_sz := if a3.1 then resp.path.length else 0
            create_mask := resp.create_mask
            directory_mask := resp.directory_mask
            force_create_mode := resp.force_create_mode
            force_directory_mode := resp.force_directory_mode
            force_uid := resp.force_uid
            force_gid := resp.force_gid }
      let pv := parse_veto_list a3.2 resp.veto_buf resp.veto_list_sz
      match pv.1 with
      | Except.error _ => (none, pv.2)
      | Except.ok veto =>
        let share2 : ShareConfig := { share1 with veto_list := veto }
        match share2.path with
        | some p =>
          match resolver p with
          | some h =>
            if share2.name.isSome then
              (some { share2 with vfs_path := some h }, pv.2)
            else (none, pv.2)
          | none => (none, pv.2)
        | none =>
          if share2.name.isSome then (some share2, pv.2)
          else (none, pv.2)

/-- The share table, flattened to a list; `hash_add` is head insertion. -/
abbrev ShareTable := List ShareConfig

/-- `__get_share_config` (share_config.c lines 77–83):
`atomic_inc_not_zero` — `none` when the refcount already reached zero,
otherwise the share with the refcount incremented. -/
def __get_share_config (share : ShareConfig) : Option ShareConfig :=
  if share.refcount = 0 then none
  else some { share with refcount := share.refcount + 1 }

/-- `__share_lookup` (share_config.c lines 85–95): first entry of the table
whose name `strcmp`s equal to `name`. -/
def __share_lookup (t : ShareTable) (name : List Nat) : Option ShareConfig :=
  t.find? (fun s => decide (s.name = some name))

/-- The locked lookup-then-acquire used by both `ksmbd_share_config_get`
and the reconciliation in `share_config_request`: `__share_lookup` followed
by `__get_share_config` on the entry found, returning the updated table
together with the acquired share (the increment is visible in both). -/
def table_acquire : ShareTable → List Nat → ShareTable × Option ShareConfig
  | [], _ => ([], none)
  | s :: rest, name =>
    if s.name = some name then
      match __get_share_config s with
      | none => (s :: rest, none)
      | some s2 => (s2 :: rest, some s2)
    else
      let r := table_acquire rest name
      (s :: r.1, r.2)

/-- The reconciliation step of `share_config_request` (share_config.c lines
187–197), under the exclusive table lock: re-lookup and acquire; if that
failed, `hash_add` the just-built share (head insertion); otherwise
`kill_share` the just-built share and take the existing one. -/
def share_reconcile (t : ShareTable) (name : List Nat)
    (built : ShareConfig) : ShareTable × ShareConfig :=
  let r := table_acquire t name
  match r.2 with
  | some existing => (r.1, existing)
  | none => (built :: r.1, built)

/-- `share_config_request` (share_config.c lines 132–202): a NULL IPC
response or `KSMBD_SHARE_FLAG_INVALID` flags yield NULL; otherwise build,
and on successful construction reconcile against the table.  Every failure
returns the same NULL outcome. -/
def share_config_request (allocs : List Bool)
    (resolver : List Nat → Option Nat) (resp : Option ShareConfigResponse)
    (name : List Nat) (t : ShareTable) : ShareTable × Option ShareConfig :=
  match resp with
  | none => (t, none)
  | some r =>
    if r.flags = KSMBD_SHARE_FLAG_INVALID then (t, none)
    else
      match (share_config_build allocs resolver r name).1 with
      | none => (t, none)
      | some built =>
        let rc := share_reconcile t name built
        (rc.1, some rc.2)

/-- `ksmbd_share_config_get` (share_config.c lines 212–227): lowercase the
caller's name buffer in place, then lookup-and-acquire under the shared
lock; on a miss fall through to `share_config_request`.  The first
component of the result is the caller's name buffer after the call. -/
def ksmbd_share_config_get (allocs : List Bool)
    (resolver : List Nat → Option Nat) (resp : Option ShareConfigResponse)
    (t : ShareTable) (name : List Nat) :
    List Nat × ShareTable × Option ShareConfig :=
  let lname := strtolower name
  let r := table_acquire t lname
  match r.2 with
  | some s => (lname, r.1, some s)
  | none =>
    let q := share_config_request allocs resolver resp lname r.1
    (lname, q.1, q.2)

/-- `ksmbd_share_veto_filename` (share_config.c lines 229–239): walk the
veto list in list order, returning at the first pattern that
`match_wildcard`s the filename.  The wildcard engine is external to this
slice and is a parameter. -/
def ksmbd_share_veto_filename (matchW : List Nat → List Nat → Bool)
    (share : ShareConfig) (filename : List Nat) : Bool :=
  share.veto_list.any (fun p => matchW p filename)

/-- The session identity (`user_uid(sess->user)` / `user_gid(sess->user)`
accessors live in a header outside this slice; the session is modelled by
the two values they read). -/
structure KsmbdSession where
  uid : Nat
  gid : Nat
deriving DecidableEq

/-- The credential built by `ksmbd_override_fsids`: its fsuid / fsgid and
whether `cap_drop_fs_set` was applied to its effective capability set. -/
structure KCred where
  fsuid : Nat
  fsgid : Nat
  capFsDropped : Bool
deriving DecidableEq

/-- `ksmbd_override_fsids` (share_config.c lines 255–277): start from the
session's uid/gid, override each by the share's force field when it is not
the invalid sentinel; `prepare_kernel_cred(NULL)` (fresh snapshot from the
serving process's baseline, success given by `credAllocOk`) then gets the
uid/gid set and, unless the uid is `GLOBAL_ROOT_UID`, its effective
filesystem capabilities dropped.  The model returns the credential that is
installed by `override_creds`; `none` is the `ERR_PTR(-ENOMEM)` case. -/
def ksmbd_override_fsids (credAllocOk : Bool) (sess : KsmbdSession)
    (share : ShareConfig) : Option KCred :=
  let uid := if share.force_uid ≠ SHARE_INVALID_UID then share.force_uid
             else sess.uid
  let gid := if share.force_gid ≠ SHARE_INVALID_GID then share.force_gid
             else sess.gid
  if credAllocOk = false then none
  else
    some { fsuid := uid, fsgid := gid,
           capFsDropped := decide (uid ≠ GLOBAL_ROOT_UID) }

/-- Entries of the table carrying a given name, in table order — the only
view of the table that `__share_lookup`'s first-match semantics observes. -/
def nameEntries (t : ShareTable) (n : List Nat) : List ShareConfig :=
  t.filter (fun s => decide (s.name = some n))

/-- Among the same-name entries only the first may hold a positive
refcount: every later one has already dropped to zero. -/
def goodName (l : List ShareConfig) : Prop :=
  ∀ x ∈ l.tail, x.refcount = 0

/-- Table invariant: for every name, at most the first entry carrying that
name is alive (refcount positive). -/
def tableWF (t : ShareTable) : Prop := ∀ n, goodName (nameEntries t n)

/-- The operations that mutate the share table.  `get` and `fetch` are the
locked sections of `ksmbd_share_config_get` / `share_config_request`;
`put_dec` is the refcount decrement of a release (the caller holds a
reference, so the count is positive — the decrement itself lives in a
header inline function, modelled from the spec: release decrements the
refcount); `put_del` is `__ksmbd_share_config_put`'s `hash_del` once the
count reached zero; `cleanup` is `ksmbd_share_configs_cleanup`. -/
inductive TableStep : ShareTable → ShareTable → Prop where
  | get (t : ShareTable) (n : List Nat) :
      TableStep t (table_acquire t n).1
  | fetch (t : ShareTable) (n : List Nat) (allocs : List Bool)
      (resolver : List Nat → Option Nat) (resp : Option ShareConfigResponse) :
      TableStep t (share_config_request allocs resolver resp n t).1
  | put_dec (pre post : ShareTable) (s : ShareConfig) :
      0 < s.refcount →
      TableStep (pre ++ s :: post)
        (pre ++ { s with refcount := s.refcount - 1 } :: post)
  | put_del (pre post : ShareTable) (s : ShareConfig) :
      s.refcount = 0 →
      TableStep (pre ++ s :: post) (pre ++ post)
  | cleanup (t : ShareTable) : TableStep t []

/-- Specification-side decomposition of a veto buffer into its
NUL-terminated strings: consume one string at a time, advance by its
length plus one, stop when the remaining length is no longer positive or a
zero-length string is met. -/
def cstrSpec (buf : List Nat) (sz : Int) : List (List Nat) :=
  if 0 < sz then
    let s := buf.takeWhile (fun c => c != 0)
    if s.length = 0 then []
    else s :: cstrSpec (buf.drop (s.length + 1)) (sz - ((s.length : Int) + 1))
  else []
termination_by sz.toNat
decreasing_by omega

/-- Concrete share entry (name "a", one holder) for witnesses. -/
def shareA : ShareConfig := { zeroShare with name := some [97], refcount := 1 }

/-- `shareA` after one more acquisition. -/
def shareAInc : ShareConfig := { zeroShare with name := some [97], refcount := 2 }

/-- Concrete share entry (name "b", one holder) for witnesses. -/
def shareB : ShareConfig := { zeroShare with name := some [98], refcount := 1 }

/-- Concrete dying share entry (name "z", refcount already zero). -/
def shareZ : ShareConfig := { zeroShare with name := some [122], refcount := 0 }

/-- Concrete valid non-pipe response, path "p", empty veto buffer. -/
def respA : ShareConfigResponse :=
  { flags := 1, create_mask := 420, directory_mask := 493,
    force_create_mode := 0, force_directory_mode := 0,
    force_uid := 65535, force_gid := 65535,
    path := [112], veto_buf := [], veto_list_sz := 0 }

/-- Concrete pipe-capable response. -/
def respPipe : ShareConfigResponse :=
  { flags := 256, create_mask := 420, directory_mask := 493,
    force_create_mode := 7, force_directory_mode := 7,
    force_uid := 1000, force_gid := 1000,
    path := [112], veto_buf := [42, 0], veto_list_sz := 2 }

/-- Concrete valid non-pipe response with a nonempty veto buffer. -/
def respV : ShareConfigResponse :=
  { flags := 1, create_mask := 420, directory_mask := 493,
    force_create_mode := 0, force_directory_mode := 0,
    force_uid := 65535, force_gid := 65535,
    path := [112], veto_buf := [42, 0], veto_list_sz := 2 }

/-- Concrete "share not found" response (`KSMBD_SHARE_FLAG_INVALID`). -/
def respInv : ShareConfigResponse :=
  { flags := 0, create_mask := 0, directory_mask := 0,
    force_create_mode := 0, force_directory_mode := 0,
    force_uid := 65535, force_gid := 65535,
    path := [], veto_buf := [], veto_list_sz := 0 }

/-- Concrete share carrying force-identity overrides 1000/1000. -/
def shareF : ShareConfig :=
  { zeroShare with force_uid := 1000, force_gid := 1000 }

/-- Concrete root session identity. -/
def sessRoot : KsmbdSession := { uid := 0, gid := 0 }

/-- The credential `ksmbd_override_fsids` computes for `sessRoot` under
`shareF`. -/
def kcredF : KCred := { fsuid := 1000, fsgid := 1000, capFsDropped := true }

theorem parse_veto_list_loop_nonpos (allocs : List Bool) (buf : List Nat)
    (sz : Int) (acc : List (List Nat)) (h : ¬ 0 < sz) :
    parse_veto_list_loop allocs buf sz acc = (Except.ok acc, allocs) := by
  unfold parse_veto_list_loop
  simp [h]

theorem parse_veto_list_zero (allocs : List Bool) (buf : List Nat) :
    parse_veto_list allocs buf 0 = (Except.ok [], allocs) := by
  unfold parse_veto_list
  exact parse_veto_list_loop_nonpos allocs buf 0 [] (by omega)

theorem parse_veto_list_first_alloc_fail (rest : List Bool) (buf : List Nat)
    (sz : Int) (h : 0 < sz) :
    parse_veto_list (false :: rest) buf sz = (Except.error (), rest) := by
  unfold parse_veto_list parse_veto_list_loop
  simp [h, allocTake]

theorem parse_veto_list_loop_all_ok (buf : List Nat) (sz : Int)
    (acc : List (List Nat)) :
    parse_veto_list_loop [] buf sz acc =
      (Except.ok ((cstrSpec buf sz).reverse ++ acc), []) := by
  by_cases h : 0 < sz
  · unfold parse_veto_list_loop cstrSpec
    by_cases h2 : (buf.takeWhile (fun c => c != 0)).length = 0
    · simp [h, h2, allocTake]
    · simp only [h, if_true, if_pos, allocTake, h2, if_false, if_neg,
        not_false_eq_true, Bool.true_eq_false]
      rw [parse_veto_list_loop_all_ok (buf.drop
        ((buf.takeWhile (fun c => c != 0)).length + 1))
        (sz - (((buf.takeWhile (fun c => c != 0)).length : Int) + 1))
        ((buf.takeWhile (fun c => c != 0)) :: acc)]
      simp
  · rw [parse_veto_list_loop_nonpos _ _ _ _ h]
    unfold cstrSpec
    simp [h]
termination_by sz.toNat
decreasing_by omega

theorem parse_veto_list_all_ok (buf : List Nat) (sz : Int) :
    parse_veto_list [] buf sz = (Except.ok ((cstrSpec buf sz).reverse), []) := by
  unfold parse_veto_list
  rw [parse_veto_list_loop_all_ok]
  simp

/-- C4 counterexample: the buffer "ab\0c\0" (length 5) holds the patterns
"ab" then "c", but `parse_veto_list` stores the list as ["c", "ab"] — the
reverse of the buffer order — so the first pattern of the buffer is not the
first element the matching walk evaluates. -/
theorem veto_order_counterexample :
    (parse_veto_list [] [97, 98, 0, 99, 0] 5).1 =
      Except.ok [[99], [97, 98]] ∧
    (parse_veto_list [] [97, 98, 0, 99, 0] 5).1 ≠
      Except.ok [[97, 98], [99]] := by
  have h : parse_veto_list [] [97, 98, 0, 99, 0] 5 =
      (Except.ok [[99], [97, 98]], []) := by
    simp [parse_veto_list, parse_veto_list_loop, allocTake]
  exact ⟨by rw [h], by rw [h]; simp⟩

/-- C4 (amended): `parse_veto_list` prepends each pattern (`list_add` is
head insertion), so it stores — and `ksmbd_share_veto_filename` therefore
evaluates — the patterns in reverse of their buffer order; the collection
of patterns is preserved, so whether any pattern matches is unaffected by
the reversal. -/
theorem veto_parse_reverses_order :
    ∀ (buf : List Nat) (sz : Int) (matchW : List Nat → List Nat → Bool)
      (share : ShareConfig) (filename : List Nat),
      (parse_veto_list [] buf sz).1 =
        Except.ok ((cstrSpec buf sz).reverse) ∧
      ksmbd_share_veto_filename matchW
          { share with veto_list := (cstrSpec buf sz).reverse } filename =
        (cstrSpec buf sz).any (fun p => matchW p filename) := by
  intro buf sz matchW share filename
  refine ⟨by rw [parse_veto_list_all_ok], ?_⟩
  simp [ksmbd_share_veto_filename, List.any_eq_true]

/-- C7: `parse_veto_list` with `total_length = 0` yields the empty list and
success, and in general (with every allocation succeeding) it returns
success with exactly the strings of the buffer's decomposition —
`cstrSpec`, which consumes one NUL-terminated string at a time, advances by
its length plus one, and stops when the remaining length is no longer
positive or a zero-length string appears (an early stop, not an error). -/
theorem veto_parse_consumption :
    (∀ (allocs : List Bool) (buf : List Nat),
        parse_veto_list allocs buf 0 = (Except.ok [], allocs)) ∧
    (∀ (buf : List Nat) (sz : Int),
        parse_veto_list [] buf sz =
          (Except.ok ((cstrSpec buf sz).reverse), [])) := by
  exact ⟨parse_veto_list_zero, parse_veto_list_all_ok⟩

/-- C8: `ksmbd_share_veto_filename` is true exactly when some pattern of
the share's veto list matches the filename under the wildcard engine; it
short-circuits at the first matching pattern, and an empty veto list never
matches. -/
theorem veto_filename_matches :
    ∀ (matchW : List Nat → List Nat → Bool) (share : ShareConfig)
      (filename p0 : List Nat) (rest : List (List Nat)),
      (ksmbd_share_veto_filename matchW share filename = true ↔
        ∃ p ∈ share.veto_list, matchW p filename = true) ∧
      ksmbd_share_veto_filename matchW { share with veto_list := [] }
        filename = false ∧
      ksmbd_share_veto_filename matchW { share with veto_list := p0 :: rest }
          filename =
        (matchW p0 filename ||
          ksmbd_share_veto_filename matchW { share with veto_list := rest }
            filename) := by
  intro matchW share filename p0 rest
  refine ⟨?_, ?_, ?_⟩
  · simp [ksmbd_share_veto_filename, List.any_eq_true]
  · simp [ksmbd_share_veto_filename]
  · simp [ksmbd_share_veto_filename]

theorem mem_of_tail {x : ShareConfig} {l : List ShareConfig}
    (h : x ∈ l.tail) : x ∈ l := by
  cases l with
  | nil => simp at h
  | cons a as => exact List.mem_cons_of_mem a h

theorem goodName_of_allZero {l : List ShareConfig}
    (h : ∀ x ∈ l, x.refcount = 0) : goodName l :=
  fun x hx => h x (mem_of_tail hx)

theorem tableWF_nil : tableWF [] := by
  intro n x hx
  simp [nameEntries] at hx

theorem tableWF_singleton (s : ShareConfig) : tableWF [s] := by
  intro n x hx
  simp only [nameEntries, List.filter_cons, List.filter_nil] at hx
  by_cases hc : (decide (s.name = some n)) = true
  · rw [if_pos hc] at hx
    simp at hx
  · rw [if_neg hc] at hx
    simp at hx

theorem tableWF_of_cons {s : ShareConfig} {rest : ShareTable}
    (h : tableWF (s :: rest)) : tableWF rest := by
  intro n
  have h2 := h n
  simp only [nameEntries, List.filter_cons] at h2
  by_cases hc : (decide (s.name = some n)) = true
  · rw [if_pos hc] at h2
    intro x hx
    exact h2 x (mem_of_tail hx)
  · rw [if_neg hc] at h2
    exact h2

theorem table_acquire_cons_pos {s : ShareConfig} {rest : ShareTable}
    {n : List Nat} (hs : s.name = some n) :
    table_acquire (s :: rest) n =
      match __get_share_config s with
      | none => (s :: rest, none)
      | some s2 => (s2 :: rest, some s2) := by
  simp only [table_acquire]
  rw [if_pos hs]

theorem table_acquire_cons_neg {s : ShareConfig} {rest : ShareTable}
    {n : List Nat} (hs : ¬ s.name = some n) :
    table_acquire (s :: rest) n =
      (s :: (table_acquire rest n).1, (table_acquire rest n).2) := by
  simp only [table_acquire]
  rw [if_neg hs]

theorem table_acquire_snd (t : ShareTable) (n : List Nat) :
    (table_acquire t n).2 = (__share_lookup t n).bind __get_share_config := by
  induction t with
  | nil => rfl
  | cons s rest ih =>
    by_cases hs : s.name = some n
    · have hd : (decide (s.name = some n)) = true := by simp [hs]
      cases hg : __get_share_config s with
      | none =>
        simp [table_acquire_cons_pos hs, __share_lookup, List.find?_cons, hd, hg]
      | some s2 =>
        simp [table_acquire_cons_pos hs, __share_lookup, List.find?_cons, hd, hg]
    · have hd : (decide (s.name = some n)) = false := by simp [hs]
      rw [table_acquire_cons_neg hs]
      simp only [__share_lookup, List.find?_cons, hd]
      simpa [__share_lookup] using ih

theorem table_acquire_miss_eq {t : ShareTable} {n : List Nat}
    (h : (table_acquire t n).2 = none) : (table_acquire t n).1 = t := by
  induction t with
  | nil => rfl
  | cons s rest ih =>
    by_cases hs : s.name = some n
    · cases hg : __get_share_config s with
      | none => simp [table_acquire, hs, hg]
      | some s2 => simp [table_acquire, hs, hg] at h
    · simp only [table_acquire, if_neg hs] at h ⊢
      simp only [List.cons.injEq, true_and]
      exact ih h

theorem table_acquire_miss_zero {t : ShareTable} {n : List Nat}
    (hwf : tableWF t) (h : (table_acquire t n).2 = none) :
    ∀ x ∈ t, x.name = some n → x.refcount = 0 := by
  induction t with
  | nil => intro x hx; simp at hx
  | cons s rest ih =>
    intro x hx hxn
    by_cases hs : s.name = some n
    · have h0 : s.refcount = 0 := by
        by_contra hc
        simp [table_acquire, hs, __get_share_config, hc] at h
      rcases List.mem_cons.mp hx with rfl | hmem
      · exact h0
      · have hgood := hwf n
        simp only [nameEntries, List.filter_cons] at hgood
        rw [if_pos (by simp [hs])] at hgood
        exact hgood x (List.mem_filter.mpr ⟨hmem, by simp [hxn]⟩)
    · have h' : (table_acquire rest n).2 = none := by
        simpa only [table_acquire, if_neg hs] using h
      rcases List.mem_cons.mp hx with rfl | hmem
      · exact absurd hxn hs
      · exact ih (tableWF_of_cons hwf) h' x hmem hxn

theorem table_acquire_hit_decomp {t : ShareTable} {n : List Nat}
    {v : ShareConfig} (h : (table_acquire t n).2 = some v) :
    ∃ pre s post, t = pre ++ s :: post ∧ (∀ x ∈ pre, ¬ x.name = some n) ∧
      s.name = some n ∧ ¬ s.refcount = 0 ∧
      v = { s with refcount := s.refcount + 1 } ∧
      (table_acquire t n).1 = pre ++ v :: post := by
  induction t with
  | nil => simp [table_acquire] at h
  | cons s rest ih =>
    by_cases hs : s.name = some n
    · by_cases h0 : s.refcount = 0
      · have hg : __get_share_config s = none := by
          simp [__get_share_config, h0]
        rw [table_acquire_cons_pos hs] at h
        simp [hg] at h
      · have hg : __get_share_config s =
            some { s with refcount := s.refcount + 1 } := by
          simp [__get_share_config, h0]
        rw [table_acquire_cons_pos hs] at h
        rw [hg] at h
        simp only at h
        have hv : v = { s with refcount := s.refcount + 1 } :=
          (Option.some.inj h).symm
        refine ⟨[], s, rest, rfl, by simp, hs, h0, hv, ?_⟩
        rw [table_acquire_cons_pos hs, hg]
        simp [hv]
    · rw [table_acquire_cons_neg hs] at h
      simp only at h
      obtain ⟨pre, s1, post, ht, hpre, hn1, h01, hv, h1⟩ := ih h
      refine ⟨s :: pre, s1, post, by rw [ht]; rfl, ?_, hn1, h01, hv, ?_⟩
      · intro x hx
        rcases List.mem_cons.mp hx with rfl | hmem
        · exact hs
        · exact hpre x hmem
      · rw [table_acquire_cons_neg hs]
        simp only [List.cons_append, List.cons.injEq, true_and]
        exact h1

theorem goodName_replace {l1 l2 : List ShareConfig} {s s2 : ShareConfig}
    (hpos : ¬ s.refcount = 0) (h : goodName (l1 ++ s :: l2)) :
    goodName (l1 ++ s2 :: l2) := by
  cases l1 with
  | nil =>
    intro x hx
    exact h x hx
  | cons a as =>
    exfalso
    apply hpos
    apply h s
    simp

theorem tableWF_replace {pre post : ShareTable} {s s2 : ShareConfig}
    (hname : s2.name = s.name) (hpos : ¬ s.refcount = 0)
    (hwf : tableWF (pre ++ s :: post)) : tableWF (pre ++ s2 :: post) := by
  intro m
  have hm := hwf m
  simp only [nameEntries, List.filter_append, List.filter_cons, hname] at hm ⊢
  by_cases hc : (decide (s.name = some m)) = true
  · rw [if_pos hc] at hm ⊢
    exact goodName_replace hpos hm
  · rw [if_neg hc] at hm ⊢
    exact hm

theorem tableWF_insert {t : ShareTable} {b : ShareConfig} {n : List Nat}
    (hname : b.name = some n ∨ b.name = none)
    (hzero : ∀ x ∈ t, x.name = some n → x.refcount = 0)
    (hwf : tableWF t) : tableWF (b :: t) := by
  intro m
  simp only [nameEntries, List.filter_cons]
  by_cases hc : (decide (b.name = some m)) = true
  · rw [if_pos hc]
    have hbm : b.name = some m := of_decide_eq_true hc
    have hmn : m = n := by
      rcases hname with h1 | h1
      · rw [h1] at hbm
        exact (Option.some.inj hbm).symm
      · rw [h1] at hbm
        exact absurd hbm (by simp)
    subst hmn
    intro x hx
    have hx2 := List.mem_filter.mp hx
    exact hzero x hx2.1 (of_decide_eq_true hx2.2)
  · rw [if_neg hc]
    exact hwf m

theorem goodName_delete {l1 l2 : List ShareConfig} {x : ShareConfig}
    (h : goodName (l1 ++ x :: l2)) : goodName (l1 ++ l2) := by
  cases l1 with
  | nil =>
    intro y hy
    exact h y (mem_of_tail hy)
  | cons a as =>
    intro y hy
    apply h
    simp only [List.cons_append, List.tail_cons] at hy ⊢
    simp only [List.mem_append] at hy ⊢
    rcases hy with hy | hy
    · exact Or.inl hy
    · exact Or.inr (List.mem_cons_of_mem x hy)

theorem tableWF_remove {pre post : ShareTable} {s : ShareConfig}
    (hwf : tableWF (pre ++ s :: post)) : tableWF (pre ++ post) := by
  intro m
  have hm := hwf m
  simp only [nameEntries, List.filter_append, List.filter_cons] at hm ⊢
  by_cases hc : (decide (s.name = some m)) = true
  · rw [if_pos hc] at hm
    exact goodName_delete hm
  · rw [if_neg hc] at hm
    exact hm

theorem tableWF_acquire {t : ShareTable} (n : List Nat) (hwf : tableWF t) :
    tableWF (table_acquire t n).1 := by
  cases h : (table_acquire t n).2 with
  | none => rw [table_acquire_miss_eq h]; exact hwf
  | some v =>
    obtain ⟨pre, s, post, ht, hpre, hn, h0, hv, h1⟩ := table_acquire_hit_decomp h
    rw [h1]
    subst ht
    exact tableWF_replace (by rw [hv]) h0 hwf

theorem share_config_build_fields {allocs : List Bool}
    {resolver : List Nat → Option Nat} {resp : ShareConfigResponse}
    {name : List Nat} {built : ShareConfig}
    (h : (share_config_build allocs resolver resp name).1 = some built) :
    (built.name = some name ∨ built.name = none) ∧ built.refcount = 1 := by
  unfold share_config_build at h
  by_cases h1 : (allocTake allocs).1 = false
  · rw [if_pos h1] at h
    simp at h
  · rw [if_neg h1] at h
    by_cases h2 : (allocTake (allocTake allocs).2).1
    · simp only [h2, if_true] at h
      split at h
      · -- pipe branch
        have hb := Option.some.inj h
        constructor
        · left
          rw [← hb]
        · rw [← hb]
      · -- non-pipe branch
        split at h
        · simp at h
        · split at h
          · split at h
            · split at h
              · have hb := Option.some.inj h
                constructor
                · left
                  rw [← hb]
                · rw [← hb]
              · simp at h
            · simp at h
          · split at h
            · have hb := Option.some.inj h
              constructor
              · left
                rw [← hb]
              · rw [← hb]
            · simp at h
    · simp only [h2, if_false, Bool.false_eq_true] at h
      split at h
      · have hb := Option.some.inj h
        constructor
        · right
          rw [← hb]
        · rw [← hb]
      · split at h
        · simp at h
        · split at h
          · split at h
            · split at h
              · have hb := Option.some.inj h
                constructor
                · right
                  rw [← hb]
                · rw [← hb]
              · simp at h
            · simp at h
          · split at h
            · have hb := Option.some.inj h
              constructor
              · right
                rw [← hb]
              · rw [← hb]
            · simp at h

theorem tableWF_request {t : ShareTable} (allocs : List Bool)
    (resolver : List Nat → Option Nat) (resp : Option ShareConfigResponse)
    (n : List Nat) (hwf : tableWF t) :
    tableWF (share_config_request allocs resolver resp n t).1 := by
  cases resp with
  | none => exact hwf
  | some r =>
    unfold share_config_request
    dsimp only
    by_cases hf : r.flags = KSMBD_SHARE_FLAG_INVALID
    · rw [if_pos hf]
      exact hwf
    · rw [if_neg hf]
      cases hb : (share_config_build allocs resolver r n).1 with
      | none => exact hwf
      | some built =>
        simp only
        unfold share_reconcile
        cases ha : (table_acquire t n).2 with
        | some v =>
          simp only [ha]
          exact tableWF_acquire n hwf
        | none =>
          simp only [ha]
          rw [table_acquire_miss_eq ha]
          obtain ⟨hn, _⟩ := share_config_build_fields hb
          exact tableWF_insert hn (table_acquire_miss_zero hwf ha) hwf

theorem tableWF_step {t t2 : ShareTable} (hwf : tableWF t)
    (h : TableStep t t2) : tableWF t2 := by
  cases h with
  | get t n => exact tableWF_acquire n hwf
  | fetch t n allocs resolver resp => exact tableWF_request _ _ _ _ hwf
  | put_dec pre post s hs =>
    exact @tableWF_replace pre post s { s with refcount := s.refcount - 1 }
      rfl (by omega) hwf
  | put_del pre post s hs => exact tableWF_remove hwf
  | cleanup t => exact tableWF_nil

theorem tableWF_pos_unique {t : ShareTable} {n : List Nat}
    (hwf : tableWF t) :
    ((nameEntries t n).filter (fun s => decide (0 < s.refcount))).length ≤ 1 := by
  have h := hwf n
  cases hne : nameEntries t n with
  | nil => simp
  | cons a l =>
    rw [hne] at h
    have hl : l.filter (fun s => decide (0 < s.refcount)) = [] := by
      rw [List.filter_eq_nil_iff]
      intro x hx
      simp [h x hx]
    rw [List.filter_cons, hl]
    by_cases hc : (decide (0 < a.refcount)) = true
    · rw [if_pos hc]
      simp
    · rw [if_neg hc]
      simp

/-- C2: when the reconciliation step under the exclusive table lock finds
an existing entry for the name whose refcount is positive, the just-built
entity is discarded (the result table is exactly the acquire-updated table,
with nothing inserted) and the existing entity is returned with its
refcount incremented; moreover every table operation preserves the
invariant that per name at most the first-listed entry has a positive
refcount, so at most one entry per name with refcount ≥ 1 is ever
reachable from the table, and concurrent fetchers of one uncached name all
receive references to that single entity. -/
theorem reconcile_dedup_and_unique_active :
    (∀ (t : ShareTable) (n : List Nat) (built v : ShareConfig),
        (table_acquire t n).2 = some v →
        share_reconcile t n built = ((table_acquire t n).1, v) ∧
        ∃ s, __share_lookup t n = some s ∧ 0 < s.refcount ∧
          v = { s with refcount := s.refcount + 1 }) ∧
    (∀ (t t2 : ShareTable), tableWF t → TableStep t t2 → tableWF t2) ∧
    (∀ (t : ShareTable) (n : List Nat), tableWF t →
        ((nameEntries t n).filter
            (fun s => decide (0 < s.refcount))).length ≤ 1) := by
  refine ⟨?_, fun t t2 hwf h => tableWF_step hwf h,
    fun t n hwf => tableWF_pos_unique hwf⟩
  intro t n built v h
  constructor
  · unfold share_reconcile
    dsimp only
    rw [h]
  · have hb : (__share_lookup t n).bind __get_share_config = some v := by
      rw [← table_acquire_snd]
      exact h
    cases hl : __share_lookup t n with
    | none =>
      rw [hl] at hb
      simp at hb
    | some s =>
      rw [hl] at hb
      simp only [Option.some_bind] at hb
      by_cases h0 : s.refcount = 0
      · simp [__get_share_config, h0] at hb
      · refine ⟨s, rfl, by omega, ?_⟩
        simp only [__get_share_config, if_neg h0] at hb
        exact (Option.some.inj hb).symm

/-- Witness for C2: a table holding "a" with one reference; reconciling a
freshly built entity against it returns the existing entry at refcount 2
and drops the built one; the invariant facts at concrete tables. -/
theorem reconcile_dedup_and_unique_active_witness :
    (share_reconcile [shareA] [97] shareB = ([shareAInc], shareAInc) ∧
      ∃ s, __share_lookup [shareA] [97] = some s ∧ 0 < s.refcount ∧
        shareAInc = { s with refcount := s.refcount + 1 }) ∧
    tableWF ([] : ShareTable) ∧
    ((nameEntries [shareA] [97]).filter
        (fun s => decide (0 < s.refcount))).length ≤ 1 := by
  refine ⟨?_, ?_, ?_⟩
  · have hacq : (table_acquire [shareA] [97]).2 = some shareAInc := by decide
    have h := reconcile_dedup_and_unique_active.1 [shareA] [97] shareB
      shareAInc hacq
    have he : (table_acquire [shareA] [97]).1 = [shareAInc] := by decide
    rw [he] at h
    exact h
  · exact reconcile_dedup_and_unique_active.2.1 [] [] tableWF_nil
      (TableStep.cleanup [])
  · exact reconcile_dedup_and_unique_active.2.2 [shareA] [97]
      (tableWF_singleton shareA)

/-- C3: reference acquisition never resurrects a dying entry:
`__get_share_config` is an increment-only-if-positive (`none` on a zero
refcount), the locked lookup-acquire is exactly lookup followed by that
conditional increment, and when the entry found for the name has refcount
zero the whole acquire is a miss that leaves the table — including the
zero refcount — unchanged. -/
theorem acquire_never_resurrects :
    (∀ s : ShareConfig, s.refcount = 0 → __get_share_config s = none) ∧
    (∀ (t : ShareTable) (n : List Nat),
        (table_acquire t n).2 = (__share_lookup t n).bind __get_share_config) ∧
    (∀ (pre post : ShareTable) (s : ShareConfig) (n : List Nat),
        (∀ x ∈ pre, ¬ x.name = some n) → s.name = some n → s.refcount = 0 →
        table_acquire (pre ++ s :: post) n = (pre ++ s :: post, none)) := by
  refine ⟨?_, table_acquire_snd, ?_⟩
  · intro s h
    simp [__get_share_config, h]
  · intro pre post s n hpre hs h0
    induction pre with
    | nil =>
      rw [List.nil_append, table_acquire_cons_pos hs]
      simp [__get_share_config, h0]
    | cons a as ih =>
      have ha : ¬ a.name = some n := hpre a (List.mem_cons_self a as)
      rw [List.cons_append, table_acquire_cons_neg ha]
      rw [ih (fun x hx => hpre x (List.mem_cons_of_mem a hx))]

/-- Witness for C3: a dying entry (name "z", refcount 0) is not acquired,
and a lookup through a table holding it reports a miss with the table
unchanged. -/
theorem acquire_never_resurrects_witness :
    __get_share_config shareZ = none ∧
    table_acquire [shareB, shareZ] [122] = ([shareB, shareZ], none) := by
  constructor
  · exact acquire_never_resurrects.1 shareZ (by decide)
  · exact acquire_never_resurrects.2.2 [shareB] [] shareZ [122]
      (by decide) (by decide) (by decide)

theorem tolowerByte_idem (c : Nat) :
    tolowerByte (tolowerByte c) = tolowerByte c := by
  unfold tolowerByte
  by_cases h : 65 ≤ c ∧ c ≤ 90
  · simp only [if_pos h]
    rw [if_neg (by omega)]
  · simp only [if_neg h]

theorem strtolower_idem (s : List Nat) :
    strtolower (strtolower s) = strtolower s := by
  induction s with
  | nil => rfl
  | cons c cs ih =>
    unfold strtolower at ih ⊢
    simp only [List.map_cons, List.cons.injEq]
    exact ⟨tolowerByte_idem c, ih⟩

/-- C1 counterexample: a valid non-pipe response whose path fails to
resolve does NOT yield a usable pathless entity — `share_config_request`
kills the just-built share (`if (ret || !share->name)` still sees the
nonzero `kern_path` return) and reports NULL to the caller. -/
theorem resolution_failure_counterexample :
    share_config_request [] (fun _ => none) (some respA) [97] [] =
      ([], none) := by
  simp [share_config_request, respA, KSMBD_SHARE_FLAG_INVALID,
    share_config_build, allocTake, test_share_config_flag,
    KSMBD_SHARE_FLAG_PIPE, zeroShare, parse_veto_list_zero]

/-- C1 (amended): for every valid non-pipe response, when allocations
succeed and path resolution fails, construction fails: the share is
destroyed and `share_config_request` returns the NULL outcome — the same
value the caller sees for an unknown share — leaving the table unchanged;
no pathless entity is returned from the resolution-failure path. -/
theorem resolution_failure_fails_request :
    ∀ (resp : ShareConfigResponse) (name : List Nat) (t : ShareTable)
      (resolver : List Nat → Option Nat),
      ¬ resp.flags = KSMBD_SHARE_FLAG_INVALID →
      resp.flags &&& KSMBD_SHARE_FLAG_PIPE = 0 →
      resolver resp.path = none →
      share_config_request [] resolver (some resp) name t = (t, none) := by
  intro resp name t resolver hinv hpipe hres
  have hb : (share_config_build [] resolver resp name).1 = none := by
    simp [share_config_build, allocTake, test_share_config_flag, hpipe,
      parse_veto_list_all_ok, hres]
  unfold share_config_request
  dsimp only
  rw [if_neg hinv, hb]

/-- Witness for the amended C1 at concrete inputs. -/
theorem resolution_failure_fails_request_witness :
    share_config_request [] (fun _ => none) (some respA) [98] [shareB] =
      ([shareB], none) :=
  resolution_failure_fails_request respA [98] [shareB] (fun _ => none)
    (by decide) (by decide) rfl

/-- C5 counterexample: for a pipe-capable response, a failed name
duplication (second allocation) is not detected — the fetch reports
success and hands out an entity whose name is absent, instead of
reporting an allocation failure. -/
theorem alloc_failure_counterexample :
    (share_config_request [true, false] (fun _ => none) (some respPipe)
        [97] []).2 =
      some { zeroShare with flags := 256, refcount := 1, name := none } := by
  decide

/-- C5 (amended): an allocation failure of the share structure — or, for
non-pipe responses, of the name duplicate or of a veto-list entry —
discards the attempt, but is reported as the same NULL outcome an
invalid/NotFound response produces, not as a distinct resource-exhaustion
signal; and for pipe responses a failed name duplication is not detected
at all: construction succeeds with an absent name. -/
theorem alloc_failure_behavior :
    (∀ (rest : List Bool) (resolver : List Nat → Option Nat)
        (resp : ShareConfigResponse) (name : List Nat) (t : ShareTable),
        ¬ resp.flags = KSMBD_SHARE_FLAG_INVALID →
        share_config_request (false :: rest) resolver (some resp) name t =
          (t, none)) ∧
    (∀ (resolver : List Nat → Option Nat) (resp : ShareConfigResponse)
        (name : List Nat) (t : ShareTable),
        ¬ resp.flags = KSMBD_SHARE_FLAG_INVALID →
        resp.flags &&& KSMBD_SHARE_FLAG_PIPE = 0 →
        share_config_request [true, false] resolver (some resp) name t =
          (t, none)) ∧
    (∀ (resolver : List Nat → Option Nat) (resp : ShareConfigResponse)
        (name : List Nat) (t : ShareTable),
        ¬ resp.flags = KSMBD_SHARE_FLAG_INVALID →
        resp.flags &&& KSMBD_SHARE_FLAG_PIPE = 0 →
        0 < resp.veto_list_sz →
        share_config_request [true, true, true, false] resolver (some resp)
          name t = (t, none)) ∧
    (∀ (allocs : List Bool) (resolver : List Nat → Option Nat)
        (resp : ShareConfigResponse) (name : List Nat) (t : ShareTable),
        resp.flags = KSMBD_SHARE_FLAG_INVALID →
        share_config_request allocs resolver (some resp) name t =
          (t, none)) ∧
    (∀ (resolver : List Nat → Option Nat) (resp : ShareConfigResponse)
        (name : List Nat),
        ¬ resp.flags &&& KSMBD_SHARE_FLAG_PIPE = 0 →
        (share_config_build [true, false] resolver resp name).1 =
          some { zeroShare with flags := resp.flags, refcount := 1,
                                name := none }) := by
  refine ⟨?_, ?_, ?_, ?_, ?_⟩
  · intro rest resolver resp name t hinv
    have hb : (share_config_build (false :: rest) resolver resp name).1 =
        none := by
      simp [share_config_build, allocTake]
    unfold share_config_request
    dsimp only
    rw [if_neg hinv, hb]
  · intro resolver resp name t hinv hpipe
    have hb : (share_config_build [true, false] resolver resp name).1 =
        none := by
      cases hr : resolver resp.path with
      | none =>
        simp [share_config_build, allocTake, test_share_config_flag, hpipe,
          parse_veto_list_all_ok, hr]
      | some hdl =>
        simp [share_config_build, allocTake, test_share_config_flag, hpipe,
          parse_veto_list_all_ok, hr]
    unfold share_config_request
    dsimp only
    rw [if_neg hinv, hb]
  · intro resolver resp name t hinv hpipe hsz
    have hb : (share_config_build [true, true, true, false] resolver resp
        name).1 = none := by
      simp [share_config_build, allocTake, test_share_config_flag, hpipe,
        parse_veto_list_first_alloc_fail _ _ _ hsz]
    unfold share_config_request
    dsimp only
    rw [if_neg hinv, hb]
  · intro allocs resolver resp name t hinv
    unfold share_config_request
    dsimp only
    rw [if_pos hinv]
  · intro resolver resp name hp
    simp [share_config_build, allocTake, test_share_config_flag, hp]

/-- Witness for the amended C5 at concrete inputs. -/
theorem alloc_failure_behavior_witness :
    share_config_request [false] (fun _ => none) (some respA) [97] [] =
      ([], none) ∧
    share_config_request [true, false] (fun _ => some 5) (some respA)
      [98] [] = ([], none) ∧
    share_config_request [true, true, true, false] (fun _ => some 5)
      (some respV) [97] [] = ([], none) ∧
    share_config_request [true] (fun _ => none) (some respInv) [97] [] =
      ([], none) ∧
    (share_config_build [true, false] (fun _ => some 5) respPipe [97]).1 =
      some { zeroShare with flags := respPipe.flags, refcount := 1,
                            name := none } := by
  refine ⟨?_, ?_, ?_, ?_, ?_⟩
  · exact alloc_failure_behavior.1 [] (fun _ => none) respA [97] []
      (by decide)
  · exact alloc_failure_behavior.2.1 (fun _ => some 5) respA [98] []
      (by decide) (by decide)
  · exact alloc_failure_behavior.2.2.1 (fun _ => some 5) respV [97] []
      (by decide) (by decide) (by decide)
  · exact alloc_failure_behavior.2.2.2.1 [true] (fun _ => none) respInv
      [97] [] (by decide)
  · exact alloc_failure_behavior.2.2.2.2 (fun _ => some 5) respPipe [97]
      (by decide)

/-- C6: the elevated identity's uid is the session uid when `force_uid` is
the invalid sentinel and `force_uid` otherwise (independently for gid);
the filesystem-privileged capabilities are stripped from the effective set
iff the resulting uid is not the superuser; with both force fields unset
the elevated uid/gid equal the session's own. -/
theorem override_fsids_identity :
    ∀ (sess : KsmbdSession) (share : ShareConfig) (c : KCred),
      ksmbd_override_fsids true sess share = some c →
      (share.force_uid = SHARE_INVALID_UID → c.fsuid = sess.uid) ∧
      (¬ share.force_uid = SHARE_INVALID_UID → c.fsuid = share.force_uid) ∧
      (share.force_gid = SHARE_INVALID_GID → c.fsgid = sess.gid) ∧
      (¬ share.force_gid = SHARE_INVALID_GID → c.fsgid = share.force_gid) ∧
      (c.capFsDropped = true ↔ ¬ c.fsuid = GLOBAL_ROOT_UID) ∧
      (share.force_uid = SHARE_INVALID_UID →
        share.force_gid = SHARE_INVALID_GID →
        c.fsuid = sess.uid ∧ c.fsgid = sess.gid) := by
  intro sess share c h
  unfold ksmbd_override_fsids at h
  simp only [Bool.true_eq_false, if_false, Option.some.injEq] at h
  subst h
  refine ⟨?_, ?_, ?_, ?_, ?_, ?_⟩
  · intro h1
    simp [h1]
  · intro h1
    simp [h1]
  · intro h1
    simp [h1]
  · intro h1
    simp [h1]
  · by_cases h1 : share.force_uid = SHARE_INVALID_UID <;> simp [h1]
  · intro h1 h2
    simp [h1, h2]

/-- Witness for C6: session (0,0) under force 1000/1000 yields elevated
identity (1000,1000) with filesystem capabilities dropped. -/
theorem override_fsids_identity_witness :
    kcredF.fsuid = shareF.force_uid ∧ kcredF.fsgid = shareF.force_gid ∧
    (kcredF.capFsDropped = true ↔ ¬ kcredF.fsuid = GLOBAL_ROOT_UID) := by
  have h := override_fsids_identity sessRoot shareF kcredF (by decide)
  exact ⟨h.2.1 (by decide), h.2.2.2.1 (by decide), h.2.2.2.2.1⟩

/-- C9: `ksmbd_share_config_get` lowercases the caller's name buffer in
place before the lookup — after any call the buffer holds the byte-wise
lower-cased form — and the whole call behaves identically on the
already-lower-cased name. -/
theorem get_lowercases_in_place :
    ∀ (allocs : List Bool) (resolver : List Nat → Option Nat)
      (resp : Option ShareConfigResponse) (t : ShareTable) (name : List Nat),
      (ksmbd_share_config_get allocs resolver resp t name).1 =
        name.map tolowerByte ∧
      ksmbd_share_config_get allocs resolver resp t (strtolower name) =
        ksmbd_share_config_get allocs resolver resp t name := by
  intro allocs resolver resp t name
  constructor
  · unfold ksmbd_share_config_get
    dsimp only
    cases h : (table_acquire t (strtolower name)).2 <;>
      simp [h, strtolower]
  · unfold ksmbd_share_config_get
    rw [strtolower_idem]

/-- C10: for a pipe-capable response, construction copies only the flags
and the name: the result is the zeroed share with flags, refcount 1 and
the duplicated name — empty veto list, no path, zero masks — and it is
identical for any resolver and any response agreeing on the flags, so the
path string, masks, force fields and veto buffer are ignored and no path
resolution is attempted. -/
theorem pipe_build_minimal :
    ∀ (resolver : List Nat → Option Nat) (resp : ShareConfigResponse)
      (name : List Nat),
      ¬ resp.flags &&& KSMBD_SHARE_FLAG_PIPE = 0 →
      share_config_build [] resolver resp name =
        (some { zeroShare with flags := resp.flags, refcount := 1,
                               name := some name }, []) ∧
      (∀ (resolver2 : List Nat → Option Nat) (resp2 : ShareConfigResponse),
          resp2.flags = resp.flags →
          share_config_build [] resolver2 resp2 name =
            share_config_build [] resolver resp name) := by
  intro resolver resp name hp
  have hmain : ∀ (res : List Nat → Option Nat) (r : ShareConfigResponse),
      r.flags = resp.flags →
      share_config_build [] res r name =
        (some { zeroShare with flags := resp.flags, refcount := 1,
                               name := some name }, []) := by
    intro res r hr
    simp [share_config_build, allocTake, test_share_config_flag, hr, hp]
  refine ⟨hmain resolver resp rfl, ?_⟩
  intro resolver2 resp2 h2
  rw [hmain resolver2 resp2 h2, hmain resolver resp rfl]

/-- Witness for C10 at concrete pipe responses differing in every ignored
field. -/
theorem pipe_build_minimal_witness :
    share_config_build [] (fun _ => none) respPipe [97] =
      (some { zeroShare with flags := respPipe.flags, refcount := 1,
                             name := some [97] }, []) ∧
    share_config_build [] (fun _ => some 7)
        { respPipe with path := [113], veto_buf := [1, 0],
                        veto_list_sz := 2, create_mask := 511 } [97] =
      share_config_build [] (fun _ => none) respPipe [97] := by
  have h := pipe_build_minimal (fun _ => none) respPipe [97] (by decide)
  exact ⟨h.1, h.2 (fun _ => some 7) _ (by decide)⟩

end Cifsd
